import Mathlib

/-!
# Verification of the autoencoder communications-system simulation

A shallow embedding, in Lean 4, of the channel-impairment and BER-evaluation
logic of `autoencoder.py` (an autoencoder representation of a
transmitter/channel/receiver communications system), together with theorems
settling the specified properties of that logic.

Modelling conventions:
* Real-valued numpy arrays are embedded as `List ℚ` (vectors) and
  `List (List ℚ)` (row-major matrices); float arithmetic is modelled as exact
  rational arithmetic.
* Every random draw (`np.random.rayleigh`, `np.random.randn`,
  `np.random.randint`) is passed to the embedded function as an explicit
  parameter; the *parameters* handed to the sampler (scale argument, length,
  shape) are embedded as their own definitions so that claims about them can
  be stated.
* Scalar quantities involving powers of 10 and square roots
  (`beta_variance`, SNR conversions, noise standard deviations) live in `ℝ`.
* The trained network is opaque: the evaluation sweep receives the frozen
  model's forward pass as an abstract function `predict : Mat → Mat`.
-/

namespace Autoencoder

/-! ## Hyperparameters and constants (autoencoder.py lines 33-48) -/

/-- `M = 16`: number of messages. -/
def M : ℕ := 16

/-- `k = int(np.log2(M))`: bits per message. -/
def k : ℕ := Nat.log2 M

/-- `num_channels = 2`: channel uses per message. -/
def num_channels : ℕ := 2

/-- `R = k / num_channels`: communication rate (bits per channel use). -/
noncomputable def R : ℝ := (k : ℝ) / (num_channels : ℝ)

/-- `Eb_No_dB = 7`: design energy-per-bit to noise ratio, in dB. -/
def Eb_No_dB : ℝ := 7

/-- `Eb_No = np.power(10, Eb_No_dB / 10)`: design Eb/No converted to linear scale. -/
noncomputable def Eb_No : ℝ := (10 : ℝ) ^ (Eb_No_dB / 10)

/-- `beta_variance = 1 / (2*R*Eb_No)`. -/
noncomputable def beta_variance : ℝ := 1 / (2 * R * Eb_No)

/-- `size_train_data = 50000`. -/
def size_train_data : ℕ := 50000

/-- `size_val_data = 5000`. -/
def size_val_data : ℕ := 5000

/-- `size_test_data = 50000`. -/
def size_test_data : ℕ := 50000

/-! ## Matrices as lists of rows -/

/-- A real-valued vector (one numpy 1-D array). -/
abbrev Vec : Type := List ℚ

/-- A real-valued matrix, row-major (one numpy 2-D array). -/
abbrev Mat : Type := List (List ℚ)

/-- Element-wise binary operation on two equal-shaped matrices
(numpy `a op b` for same-shape 2-D arrays). -/
def zipMat (op : ℚ → ℚ → ℚ) (a b : Mat) : Mat :=
  List.zipWith (List.zipWith op) a b

/-- Numpy broadcasting of a 1-D array `v` against every row of a 2-D array `a`
(`a op v` where `v` has the length of `a`'s rows). -/
def rowBroadcast (op : ℚ → ℚ → ℚ) (a : Mat) (v : Vec) : Mat :=
  a.map (fun row => List.zipWith op row v)

/-- Apply a scalar function to every entry. -/
def mapMat (f : ℚ → ℚ) (a : Mat) : Mat :=
  a.map (List.map f)

/-- The `(i, j)` entry of a matrix (0 outside the matrix). -/
def entry (a : Mat) (i j : ℕ) : ℚ :=
  (a.getD i []).getD j 0

/-- The shape of a matrix: the list of its row lengths. -/
def shape (a : Mat) : List ℕ :=
  a.map List.length

/-- Sum of all entries. -/
def matSum (a : Mat) : ℚ :=
  (a.map (fun row => row.sum)).sum

/-- Number of entries. -/
def matCount (a : Mat) : ℕ :=
  (a.map (fun row => row.length)).sum

/-- `np.mean` over all entries of a 2-D array. -/
def matMean (a : Mat) : ℚ :=
  matSum a / (matCount a : ℚ)

/-! ## Message source (autoencoder.py lines 52-62)

`create_data_set(size)` appends, `size` times, a row `np.zeros(M)` with a `1`
written at index `np.random.randint(M)`.  The successive `randint` draws are
the explicit parameter `draws`; `for i in range(size)` runs `max size 0`
times, so the Python `int` argument is embedded as `ℤ`. -/

/-- `create_data_set(size)`: `draws i` is the `i`-th `np.random.randint(M)` draw. -/
def create_data_set (size : ℤ) (draws : ℕ → ℕ) : Mat :=
  (List.range size.toNat).map (fun i => (List.replicate M (0 : ℚ)).set (draws i) 1)

/-- Modelled from the spec: the Message Source contract of §4.1, which demands
that `generate(count)` "validate and fail with an InvalidArgument kind" for a
non-positive count.  This validating wrapper is absent from the source; it is
written here only to be compared with `create_data_set`. -/
def generate_validated (size : ℤ) (draws : ℕ → ℕ) : Except String Mat :=
  if size ≤ 0 then Except.error "InvalidArgument"
  else Except.ok (create_data_set size draws)

/-! ## Rayleigh fading layer (autoencoder.py lines 67-74)

```python
def rayleigh(x):
    f = x * np.random.rayleigh(beta_variance, num_channels)
    x = x * (1-f)
    return x
```
The drawn vector `np.random.rayleigh(beta_variance, num_channels)` is the
explicit parameter `r`; the scale argument and length handed to the sampler
are recorded below. -/

/-- The training-time fading stage `rayleigh(x)`, with the Rayleigh draw `r`
explicit: `f = x * r` (row broadcast), result `x * (1 - f)`. -/
def rayleigh (x : Mat) (r : Vec) : Mat :=
  let f := rowBroadcast (· * ·) x r
  zipMat (fun xi fi => xi * (1 - fi)) x f

/-- `rayleigh_shape(input_shape) = input_shape`. -/
def rayleigh_shape (input_shape : List ℕ) : List ℕ :=
  input_shape

/-- The scale argument passed to `np.random.rayleigh` inside `rayleigh`
(line 68): the raw `beta_variance`. -/
noncomputable def train_fading_scale : ℝ := beta_variance

/-- The length argument passed to `np.random.rayleigh` inside `rayleigh`
(line 68). -/
def train_fading_len : ℕ := num_channels

/-- The `stddev` argument of the training-time `GaussianNoise` layer
(line 125): `np.sqrt(beta_variance)`. -/
noncomputable def train_noise_std : ℝ := Real.sqrt beta_variance

/-- The additive-noise stage, as a function of the drawn noise matrix `n`
(the `GaussianNoise` layer at training time, `signal = signal + noise` at
evaluation time): element-wise addition. -/
def gaussian_noise (x n : Mat) : Mat :=
  zipMat (· + ·) x n

/-! ## Evaluation sweep (autoencoder.py lines 198-226) -/

/-- `start = -15` (sweep lower bound, dB). -/
def sweep_start : ℤ := -15

/-- `end = 15` (sweep upper bound, dB). -/
def sweep_end : ℤ := 15

/-- The third argument of `np.linspace(start, end, 2*(end-start)+1)`. -/
def n_sweep : ℕ := (2 * (sweep_end - sweep_start) + 1).toNat

/-- `range_SNR_dB = list(np.linspace(start, end, 2*(end-start)+1))`:
`np.linspace(a, b, n)` returns the `n` points `a + i*(b-a)/(n-1)`. -/
def range_SNR_dB : List ℚ :=
  (List.range n_sweep).map
    (fun (i : ℕ) => (sweep_start : ℚ) +
      (i : ℚ) * ((sweep_end : ℚ) - (sweep_start : ℚ)) / ((n_sweep : ℚ) - 1))

/-- `snr = np.power(10, range_SNR_dB[i] / 10)` at sweep point `i` (line 205). -/
noncomputable def snr_at (i : ℕ) : ℝ :=
  (10 : ℝ) ^ (((range_SNR_dB.getD i 0 : ℚ) : ℝ) / 10)

/-- `mean_noise = 0` (line 218). -/
def mean_noise : ℝ := 0

/-- `std_noise = np.sqrt(1 / (2 * R * snr))` at sweep point `i` (line 219). -/
noncomputable def std_noise_at (i : ℕ) : ℝ :=
  Real.sqrt (1 / (2 * R * snr_at i))

/-- The scale argument passed to `np.random.rayleigh` in the evaluation loop
(line 214): the raw `beta_variance`, at every sweep point `i`. -/
noncomputable def eval_fading_scale_at (_i : ℕ) : ℝ := beta_variance

/-- The length argument passed to `np.random.rayleigh` in the evaluation loop
(line 214): `M`. -/
def eval_fading_len : ℕ := M

/-- The shape argument passed to `np.random.randn` in the evaluation loop
(line 220): one row per test sample, `M` columns. -/
def eval_noise_shape : ℕ × ℕ := (size_test_data, M)

/-- `np.round`: round half to even ("banker's rounding"), the IEEE-754
default used by numpy (line 223). -/
def npRound (x : ℚ) : ℚ :=
  let f : ℤ := ⌊x⌋
  let d : ℚ := x - f
  if d < 1/2 then (f : ℚ)
  else if 1/2 < d then ((f + 1 : ℤ) : ℚ)
  else if f % 2 = 0 then (f : ℚ) else ((f + 1 : ℤ) : ℚ)

/-- Evaluation stage (a): `predictions = autoencoder.predict(test_data)`,
the frozen model's forward pass on the fixed test set. -/
def stage_predict (predict : Mat → Mat) (test_data : Mat) : Mat :=
  predict test_data

/-- Evaluation stage (b1): `signal = signal * (1-fading)`, the single drawn
fading vector broadcast across all rows. -/
def stage_fade (signal : Mat) (fading : Vec) : Mat :=
  rowBroadcast (fun s fi => s * (1 - fi)) signal fading

/-- Evaluation stage (b2): `signal = signal + noise`. -/
def stage_noise (signal noise : Mat) : Mat :=
  zipMat (· + ·) signal noise

/-- Evaluation stage (c): `signal = np.round(signal)`. -/
def stage_round (signal : Mat) : Mat :=
  mapMat npRound signal

/-- Evaluation stages (d): `errors = np.not_equal(signal, test_data)` followed
by `np.mean(errors)` (booleans averaged as 0/1 values). -/
def stage_error_rate (signal test_data : Mat) : ℚ :=
  matMean (zipMat (fun a b => if a = b then 0 else 1) signal test_data)

/-- One iteration of the evaluation loop (lines 208-226), transcribed
statement by statement; `fading` is the `np.random.rayleigh(beta_variance, M)`
draw and `noise` the already-scaled `mean_noise + std_noise * randn` matrix of
that iteration. -/
def eval_point (predict : Mat → Mat) (test_data : Mat) (fading : Vec) (noise : Mat) : ℚ :=
  let predictions := predict test_data
  let signal := predictions
  let signal := rowBroadcast (fun s fi => s * (1 - fi)) signal fading
  let signal := zipMat (· + ·) signal noise
  let signal := mapMat npRound signal
  let errors := zipMat (fun a b => if a = b then 0 else 1) signal test_data
  matMean errors

/-- The `ber` array: `ber[i]` is the error rate of sweep point `i`, with
`fad i` and `noi i` the random draws of iteration `i`. -/
def ber (predict : Mat → Mat) (test_data : Mat) (fad : ℕ → Vec) (noi : ℕ → Mat) : List ℚ :=
  (List.range range_SNR_dB.length).map (fun i => eval_point predict test_data (fad i) (noi i))

/-- The BER curve plotted at the end: `range_SNR_dB` paired with `ber`. -/
def ber_curve (predict : Mat → Mat) (test_data : Mat) (fad : ℕ → Vec) (noi : ℕ → Mat) :
    List (ℚ × ℚ) :=
  range_SNR_dB.zip (ber predict test_data fad noi)

/-- The training-time channel transform: the `rayleigh` Lambda layer followed
by the `GaussianNoise` layer, as a function of the signal and the two draws. -/
def train_channel (x : Mat) (r : Vec) (n : Mat) : Mat :=
  gaussian_noise (rayleigh x r) n

/-- The evaluation-time channel transform (lines 213-221): fading then noise,
as a function of the signal and the two draws. -/
def eval_channel (x : Mat) (r : Vec) (n : Mat) : Mat :=
  stage_noise (stage_fade x r) n

/-! ## Basic facts about the constants -/

lemma k_eq : k = 4 := by
  simp [k, M, Nat.log2]

lemma R_eq : R = 2 := by
  rw [R, k_eq]; norm_num [num_channels]

lemma Eb_No_pos : 0 < Eb_No :=
  Real.rpow_pos_of_pos (by norm_num) _

lemma one_lt_Eb_No : 1 < Eb_No := by
  rw [Eb_No, Eb_No_dB, Real.one_lt_rpow_iff_of_pos (by norm_num)]
  left; norm_num

lemma beta_variance_pos : 0 < beta_variance := by
  rw [beta_variance, R_eq]
  have := Eb_No_pos
  positivity

lemma beta_variance_lt_one : beta_variance < 1 := by
  rw [beta_variance, R_eq]
  have h := one_lt_Eb_No
  rw [div_lt_one (by nlinarith)]
  nlinarith

/-! ## Entry and shape lemmas for the matrix operations -/

lemma length_zipMat (op : ℚ → ℚ → ℚ) (a b : Mat) :
    (zipMat op a b).length = min a.length b.length := by
  simp [zipMat]

lemma length_rowBroadcast (op : ℚ → ℚ → ℚ) (a : Mat) (v : Vec) :
    (rowBroadcast op a v).length = a.length := by
  simp [rowBroadcast]

lemma getD_eq_getElem_of_lt {α : Type} [Inhabited α] (l : List α) (d : α) {i : ℕ}
    (h : i < l.length) : l.getD i d = l[i] :=
  List.getD_eq_getElem l d h

lemma row_zipMat (op : ℚ → ℚ → ℚ) (a b : Mat) {i : ℕ}
    (ha : i < a.length) (hb : i < b.length) :
    (zipMat op a b).getD i [] = List.zipWith op (a.getD i []) (b.getD i []) := by
  rw [zipMat, getD_eq_getElem_of_lt _ _ (by simp; omega), List.getElem_zipWith,
    getD_eq_getElem_of_lt _ _ ha, getD_eq_getElem_of_lt _ _ hb]

lemma row_rowBroadcast (op : ℚ → ℚ → ℚ) (a : Mat) (v : Vec) {i : ℕ}
    (ha : i < a.length) :
    (rowBroadcast op a v).getD i [] = List.zipWith op (a.getD i []) v := by
  rw [rowBroadcast, getD_eq_getElem_of_lt _ _ (by simpa), List.getElem_map,
    getD_eq_getElem_of_lt _ _ ha]

lemma entry_zipMat (op : ℚ → ℚ → ℚ) (a b : Mat) {i j : ℕ}
    (ha : i < a.length) (hb : i < b.length)
    (haj : j < (a.getD i []).length) (hbj : j < (b.getD i []).length) :
    entry (zipMat op a b) i j = op (entry a i j) (entry b i j) := by
  rw [entry, row_zipMat op a b ha hb,
    getD_eq_getElem_of_lt _ _ (by rw [List.length_zipWith]; omega), List.getElem_zipWith,
    entry, entry,
    getD_eq_getElem_of_lt _ _ haj, getD_eq_getElem_of_lt _ _ hbj]

lemma entry_rowBroadcast (op : ℚ → ℚ → ℚ) (a : Mat) (v : Vec) {i j : ℕ}
    (ha : i < a.length) (haj : j < (a.getD i []).length) (hvj : j < v.length) :
    entry (rowBroadcast op a v) i j = op (entry a i j) (v.getD j 0) := by
  rw [entry, row_rowBroadcast op a v ha,
    getD_eq_getElem_of_lt _ _ (by rw [List.length_zipWith]; omega), List.getElem_zipWith,
    entry,
    getD_eq_getElem_of_lt _ _ haj, getD_eq_getElem_of_lt _ _ hvj]

lemma shape_zipMat (op : ℚ → ℚ → ℚ) (a b : Mat) (h : shape b = shape a) :
    shape (zipMat op a b) = shape a := by
  induction a generalizing b with
  | nil => cases b <;> simp [zipMat, shape]
  | cons ra ta ih =>
    cases b with
    | nil => simp [shape] at h
    | cons rb tb =>
      simp only [shape, List.map_cons, List.cons.injEq] at h
      simp [zipMat, shape, h.1, List.length_zipWith, ih tb (by simpa [shape] using h.2)]
      simpa [shape, zipMat] using ih tb (by simpa [shape] using h.2)

lemma shape_rowBroadcast (op : ℚ → ℚ → ℚ) (a : Mat) (v : Vec)
    (h : ∀ row ∈ a, row.length = v.length) :
    shape (rowBroadcast op a v) = shape a := by
  induction a with
  | nil => simp [rowBroadcast, shape]
  | cons ra ta ih =>
    have h1 := h ra (by simp)
    simp only [rowBroadcast, shape, List.map_cons, List.length_zipWith, List.cons.injEq]
    exact ⟨by omega, by simpa [rowBroadcast, shape] using ih (fun r hr => h r (by simp [hr]))⟩

lemma shape_mapMat (f : ℚ → ℚ) (a : Mat) : shape (mapMat f a) = shape a := by
  simp [mapMat, shape]

/-! ## Mean bounds -/

lemma exists_of_mem_zipWith {α : Type} {f : α → α → α} {as bs : List α} {c : α}
    (h : c ∈ List.zipWith f as bs) : ∃ a b, c = f a b := by
  induction as generalizing bs with
  | nil => simp at h
  | cons a ta ih =>
    cases bs with
    | nil => simp at h
    | cons b tb =>
      rcases List.mem_cons.mp h with h1 | h1
      · exact ⟨a, b, h1⟩
      · exact ih h1

lemma matSum_nonneg (a : Mat) (h : ∀ row ∈ a, ∀ q ∈ row, 0 ≤ q) : 0 ≤ matSum a := by
  induction a with
  | nil => simp [matSum]
  | cons ra ta ih =>
    have h1 : (0:ℚ) ≤ ra.sum := List.sum_nonneg (h ra (by simp))
    have h2 := ih (fun r hr => h r (by simp [hr]))
    simp only [matSum, List.map_cons, List.sum_cons]
    simp only [matSum] at h2
    linarith

lemma matSum_le_matCount (a : Mat) (h : ∀ row ∈ a, ∀ q ∈ row, q ≤ 1) :
    matSum a ≤ (matCount a : ℚ) := by
  induction a with
  | nil => simp [matSum, matCount]
  | cons ra ta ih =>
    have h1 : ra.sum ≤ (ra.length : ℚ) := by
      have := List.sum_le_card_nsmul ra 1 (h ra (by simp))
      simpa using this
    have h2 := ih (fun r hr => h r (by simp [hr]))
    simp only [matSum, matCount, List.map_cons, List.sum_cons] at *
    push_cast
    push_cast at h2
    linarith

lemma matSum_eq_zero_of_matCount_eq_zero (a : Mat) (h : matCount a = 0) : matSum a = 0 := by
  induction a with
  | nil => simp [matSum]
  | cons ra ta ih =>
    simp only [matCount, List.map_cons, List.sum_cons, Nat.add_eq_zero] at h
    have hra : ra = [] := List.length_eq_zero.mp h.1
    simp only [matSum, List.map_cons, List.sum_cons, hra, List.sum_nil, zero_add]
    simpa [matSum] using ih (by simpa [matCount] using h.2)

lemma matMean_nonneg (a : Mat) (h : ∀ row ∈ a, ∀ q ∈ row, 0 ≤ q) : 0 ≤ matMean a := by
  rw [matMean]
  exact div_nonneg (matSum_nonneg a h) (by positivity)

lemma matMean_le_one (a : Mat) (h : ∀ row ∈ a, ∀ q ∈ row, q ≤ 1) : matMean a ≤ 1 := by
  rw [matMean]
  rcases Nat.eq_zero_or_pos (matCount a) with hc | hc
  · rw [matSum_eq_zero_of_matCount_eq_zero a hc]
    norm_num
  · rw [div_le_one (by exact_mod_cast hc)]
    exact matSum_le_matCount a h

lemma stage_error_rate_nonneg (s t : Mat) : 0 ≤ stage_error_rate s t := by
  refine matMean_nonneg _ (fun row hrow q hq => ?_)
  obtain ⟨ra, rb, hr⟩ := exists_of_mem_zipWith hrow
  subst hr
  obtain ⟨x, y, hq'⟩ := exists_of_mem_zipWith hq
  subst hq'
  split <;> norm_num

lemma stage_error_rate_le_one (s t : Mat) : stage_error_rate s t ≤ 1 := by
  refine matMean_le_one _ (fun row hrow q hq => ?_)
  obtain ⟨ra, rb, hr⟩ := exists_of_mem_zipWith hrow
  subst hr
  obtain ⟨x, y, hq'⟩ := exists_of_mem_zipWith hq
  subst hq'
  split <;> norm_num

/-! ## Rounding -/

lemma npRound_isInt (q : ℚ) : ∃ z : ℤ, npRound q = (z : ℚ) := by
  rw [npRound]
  split
  · exact ⟨⌊q⌋, rfl⟩
  · split
    · exact ⟨⌊q⌋ + 1, rfl⟩
    · split
      · exact ⟨⌊q⌋, rfl⟩
      · exact ⟨⌊q⌋ + 1, rfl⟩

lemma npRound_nearest (q : ℚ) : |npRound q - q| ≤ 1/2 := by
  have h1 : ((⌊q⌋ : ℚ)) ≤ q := Int.floor_le q
  have h2 : q < (⌊q⌋ : ℚ) + 1 := Int.lt_floor_add_one q
  rw [npRound]
  split
  · rw [abs_le]; constructor <;> simp <;> linarith
  · rename_i hd
    push_neg at hd
    split
    · rw [abs_le]; constructor <;> push_cast <;> linarith
    · rename_i hd2
      push_neg at hd2
      have hq : q - (⌊q⌋ : ℚ) = 1/2 := le_antisymm hd2 hd
      split
      · rw [abs_le]; constructor <;> linarith
      · rw [abs_le]; constructor <;> push_cast <;> linarith

/-! ## Entry characterizations of the channel stages -/

lemma entry_rayleigh (x : Mat) (r : Vec) {i j : ℕ} (hi : i < x.length)
    (hj : j < (x.getD i []).length) (hr : j < r.length) :
    entry (rayleigh x r) i j = entry x i j * (1 - entry x i j * r.getD j 0) := by
  rw [rayleigh]
  have hfl : i < (rowBroadcast (· * ·) x r).length := by
    rw [length_rowBroadcast]; exact hi
  have hfj : j < ((rowBroadcast (· * ·) x r).getD i []).length := by
    rw [row_rowBroadcast _ _ _ hi, List.length_zipWith]; omega
  rw [entry_zipMat _ _ _ hi hfl hj hfj, entry_rowBroadcast _ _ _ hi hj hr]

lemma entry_stage_fade (s : Mat) (fading : Vec) {i j : ℕ} (hi : i < s.length)
    (hj : j < (s.getD i []).length) (hf : j < fading.length) :
    entry (stage_fade s fading) i j = entry s i j * (1 - fading.getD j 0) := by
  rw [stage_fade, entry_rowBroadcast _ _ _ hi hj hf]

lemma entry_stage_noise (s n : Mat) {i j : ℕ} (hi : i < s.length) (hin : i < n.length)
    (hj : j < (s.getD i []).length) (hjn : j < (n.getD i []).length) :
    entry (stage_noise s n) i j = entry s i j + entry n i j := by
  rw [stage_noise, entry_zipMat _ _ _ hi hin hj hjn]

/-! ## The sweep grid -/

lemma n_sweep_eq : n_sweep = 61 := rfl

lemma length_range_SNR_dB : range_SNR_dB.length = 61 := by
  rw [range_SNR_dB, List.length_map, List.length_range, n_sweep_eq]

lemma getD_range_SNR_dB {i : ℕ} (hi : i < 61) :
    range_SNR_dB.getD i 0 = -15 + (i : ℚ) / 2 := by
  simp only [range_SNR_dB, n_sweep_eq]
  rw [List.getD_eq_getElem _ _ (by simpa using hi), List.getElem_map, List.getElem_range]
  rw [sweep_start, sweep_end]
  push_cast
  ring

lemma range_SNR_dB_sorted : range_SNR_dB.Pairwise (· < ·) := by
  rw [List.pairwise_iff_getElem]
  intro i j hi hj hij
  have hi61 : i < 61 := by rwa [length_range_SNR_dB] at hi
  have hj61 : j < 61 := by rwa [length_range_SNR_dB] at hj
  rw [← List.getD_eq_getElem range_SNR_dB 0 hi, ← List.getD_eq_getElem range_SNR_dB 0 hj,
    getD_range_SNR_dB hi61, getD_range_SNR_dB hj61]
  have hq : (i : ℚ) < j := by exact_mod_cast hij
  linarith

/-! ## Further shared lemmas -/

/-- The evaluation loop body is exactly the staged pipeline
predict → fade → add noise → round → compare-and-average. -/
lemma eval_point_eq_stages (predict : Mat → Mat) (test_data : Mat) (fading : Vec)
    (noise : Mat) :
    eval_point predict test_data fading noise =
      stage_error_rate
        (stage_round (stage_noise (stage_fade (stage_predict predict test_data) fading) noise))
        test_data :=
  rfl

lemma one_hot_row_count {t : ℕ} (ht : t < M) :
    ((List.replicate M (0:ℚ)).set t 1).count 1 = 1 := by
  rw [List.set_eq_take_cons_drop _ (by simpa using ht)]
  simp [List.count_append, List.count_cons, List.count_replicate]

lemma one_hot_row_mem {t : ℕ} (ht : t < M) :
    ∀ q ∈ (List.replicate M (0:ℚ)).set t 1, q = 1 ∨ q = 0 := by
  intro q hq
  rw [List.set_eq_take_cons_drop _ (by simpa using ht)] at hq
  rcases List.mem_append.mp hq with h | h
  · right
    rw [List.take_replicate] at h
    exact List.eq_of_mem_replicate h
  · rcases List.mem_cons.mp h with h | h
    · left; exact h
    · right
      rw [List.drop_replicate] at h
      exact List.eq_of_mem_replicate h

lemma beta_variance_ne_sqrt : beta_variance ≠ Real.sqrt beta_variance := by
  have hb0 := beta_variance_pos
  have hb1 := beta_variance_lt_one
  have hlt : beta_variance < Real.sqrt beta_variance := by
    rw [Real.lt_sqrt hb0.le]
    nlinarith
  exact ne_of_lt hlt

/-! ## The claims -/

/-- C7 (confirmed): with the configured constants `Eb_No_dB = 7`,
`num_channels = 2`, `M = 16` (so `k = 4` and `R = k/num_channels`), the
computed `beta_variance` equals `1/(2*(4/2)*10^0.7)` exactly. -/
theorem C7_beta_variance_formula :
    k = 4 ∧ beta_variance = 1 / (2 * ((4:ℝ)/2) * (10:ℝ) ^ ((0.7:ℝ))) := by
  refine ⟨k_eq, ?_⟩
  rw [beta_variance, R_eq, Eb_No, Eb_No_dB]
  norm_num

/-- C6 (confirmed): for every positive size (and in-range `randint` draws),
every row of the dataset returned by `create_data_set` has length `M`, exactly
one entry equal to `1`, and every entry is `1` or `0` (so the rest are `0`). -/
theorem C6_one_hot_invariant (size : ℤ) (draws : ℕ → ℕ)
    (_hsize : 0 < size) (hdraws : ∀ i, draws i < M) :
    ∀ row ∈ create_data_set size draws,
      row.length = M ∧ row.count 1 = 1 ∧ ∀ q ∈ row, q = 1 ∨ q = 0 := by
  intro row hrow
  rw [create_data_set, List.mem_map] at hrow
  obtain ⟨i, _, hrow⟩ := hrow
  subst hrow
  exact ⟨by simp, one_hot_row_count (hdraws i), one_hot_row_mem (hdraws i)⟩

/-- Witness for C6 at `size = 1`, `draws ≡ 3`. -/
theorem C6_witness :
    ((List.replicate M (0:ℚ)).set 3 1).length = M ∧
      ((List.replicate M (0:ℚ)).set 3 1).count 1 = 1 := by
  have h := C6_one_hot_invariant 1 (fun _ => 3) (by norm_num) (fun _ => by norm_num [M])
  have h2 := h ((List.replicate M (0:ℚ)).set 3 1) (by simp [create_data_set])
  exact ⟨h2.1, h2.2.1⟩

/-- C9 counterexample: `create_data_set` raises nothing for a non-positive
count: at count `-3` it returns the ordinary empty dataset, whereas the
claimed contract (modelled as `generate_validated`) fails with an
InvalidArgument-kind error there. -/
theorem C9_counterexample :
    create_data_set (-3) (fun _ => 0) = [] ∧
      generate_validated (-3) (fun _ => 0) = Except.error "InvalidArgument" :=
  ⟨rfl, rfl⟩

/-- C9 (amended): `create_data_set` performs no validation: for a positive
count it returns exactly `count` samples, and for a non-positive count it
returns the empty dataset without any error. -/
theorem C9_no_validation (size : ℤ) (draws : ℕ → ℕ) :
    (0 < size → ((create_data_set size draws).length : ℤ) = size) ∧
      (size ≤ 0 → create_data_set size draws = []) := by
  constructor
  · intro h
    rw [create_data_set, List.length_map, List.length_range]
    omega
  · intro h
    rw [create_data_set]
    have h0 : size.toNat = 0 := by omega
    rw [h0]
    rfl

/-- Witness for C9 (amended) at `size = 2`. -/
theorem C9_witness : ((create_data_set 2 (fun _ => 0)).length : ℤ) = 2 :=
  (C9_no_validation 2 (fun _ => 0)).1 (by norm_num)

/-- C8 (confirmed): for any batch and any row width (matching the drawn
fading vector, resp. the noise matrix), both the fading stage and the
additive-noise stage return a matrix of exactly the input's shape; the
declared `rayleigh_shape` is the identity as well. -/
theorem C8_shape_preservation (x : Mat) (r : Vec) (n : Mat)
    (hx : ∀ row ∈ x, row.length = r.length) (hn : shape n = shape x) :
    shape (rayleigh x r) = shape x ∧ shape (gaussian_noise x n) = shape x ∧
      rayleigh_shape (shape x) = shape x := by
  refine ⟨?_, shape_zipMat _ _ _ hn, rfl⟩
  rw [rayleigh]
  exact shape_zipMat _ _ _ (shape_rowBroadcast _ _ _ hx)

/-- Witness for C8 on a concrete 2×2 batch. -/
theorem C8_witness :
    shape (rayleigh [[1,2],[3,4]] [5,6]) = shape [[1,2],[3,4]] ∧
      shape (gaussian_noise [[1,2],[3,4]] [[1,1],[2,2]]) = shape [[1,2],[3,4]] :=
  have h := C8_shape_preservation [[1,2],[3,4]] [5,6] [[1,1],[2,2]]
    (by decide) (by decide)
  ⟨h.1, h.2.1⟩

/-- C3 (confirmed): each evaluation sweep point is exactly the pipeline
forward-pass → fade → add noise → round → element-wise-disagreement-mean, in
that order, with the raw forward-pass predictions (no argmax anywhere) and
with `np.round` sending every value to a nearest integer. -/
theorem C3_eval_order (predict : Mat → Mat) (test_data : Mat) (fading : Vec) (noise : Mat) :
    eval_point predict test_data fading noise =
      stage_error_rate
        (stage_round (stage_noise (stage_fade (stage_predict predict test_data) fading) noise))
        test_data ∧
      ∀ q : ℚ, (∃ z : ℤ, npRound q = (z : ℚ)) ∧ |npRound q - q| ≤ 1/2 :=
  ⟨eval_point_eq_stages predict test_data fading noise,
    fun q => ⟨npRound_isInt q, npRound_nearest q⟩⟩

/-- C5 (confirmed): the BER curve has one `(SNR_dB, error_rate)` pair per
sweep point — 61 points, the `i`-th at `-15 + i/2` dB — the SNR coordinates
appear in strictly ascending order, and every error rate lies in `[0, 1]`. -/
theorem C5_ber_curve (predict : Mat → Mat) (test_data : Mat)
    (fad : ℕ → Vec) (noi : ℕ → Mat) :
    (ber_curve predict test_data fad noi).length = 61 ∧
      (ber_curve predict test_data fad noi).map Prod.fst = range_SNR_dB ∧
      (∀ i, i < 61 → range_SNR_dB.getD i 0 = -15 + (i : ℚ) / 2) ∧
      range_SNR_dB.Pairwise (· < ·) ∧
      ∀ p ∈ ber_curve predict test_data fad noi, 0 ≤ p.2 ∧ p.2 ≤ 1 := by
  have hlen : (ber predict test_data fad noi).length = 61 := by
    rw [ber, List.length_map, List.length_range, length_range_SNR_dB]
  have hfst : (ber_curve predict test_data fad noi).map Prod.fst = range_SNR_dB := by
    rw [ber_curve]
    exact List.map_fst_zip _ _ (by rw [hlen, length_range_SNR_dB])
  refine ⟨?_, hfst, fun i hi => getD_range_SNR_dB hi, range_SNR_dB_sorted, ?_⟩
  · rw [ber_curve, List.length_zip, hlen, length_range_SNR_dB]
    omega
  · intro p hp
    have hp2 : p.2 ∈ ber predict test_data fad noi :=
      (List.of_mem_zip (by rwa [← Prod.mk.eta (p := p)] at hp)).2
    rw [ber, List.mem_map] at hp2
    obtain ⟨i, _, hp2⟩ := hp2
    rw [← hp2, eval_point_eq_stages]
    exact ⟨stage_error_rate_nonneg _ _, stage_error_rate_le_one _ _⟩

/-- Witness for C5: the curve of a trivial frozen model on an empty test set
still has 61 points, and the 60-th SNR coordinate is `15` dB. -/
theorem C5_witness :
    (ber_curve (fun m => m) [] (fun _ => []) (fun _ => [])).length = 61 ∧
      range_SNR_dB.getD 60 0 = -15 + (60 : ℚ) / 2 := by
  have h := C5_ber_curve (fun m => m) [] (fun _ => []) (fun _ => [])
  exact ⟨h.1, h.2.2.1 60 (by norm_num)⟩

/-- C10 (confirmed): at each evaluation sweep point a single fading vector of
length `M` (not `num_channels`) is drawn and broadcast across every test row
— entry `(i, j)` of the faded signal is entry `(i, j)` of the predictions
times `(1 - fading[j])`, the factor not depending on the row `i` — while the
noise matrix is drawn with one row per test sample. -/
theorem C10_fading_broadcast (s : Mat) (fading : Vec) :
    eval_fading_len = M ∧ M ≠ num_channels ∧
      eval_noise_shape = (size_test_data, M) ∧
      ∀ i j, i < s.length → j < (s.getD i []).length → j < fading.length →
        entry (stage_fade s fading) i j = entry s i j * (1 - fading.getD j 0) :=
  ⟨rfl, by decide, rfl, fun _ _ hi hj hf => entry_stage_fade s fading hi hj hf⟩

/-- Witness for C10 on a concrete 2×2 signal. -/
theorem C10_witness :
    entry (stage_fade [[1,2],[3,4]] [1/2,1/4]) 1 0 =
      entry [[1,2],[3,4]] 1 0 * (1 - ([1/2,1/4] : Vec).getD 0 0) :=
  (C10_fading_broadcast [[1,2],[3,4]] [1/2,1/4]).2.2.2 1 0
    (by norm_num) (by norm_num) (by norm_num)

/-- C1 counterexample: on input `[[2,2]]` with drawn vector `[1,1]`, the
training-time fading stage returns `[[-2,-2]]`, not the `[[0,0]]` that
"multiply the input element-wise by (1 - drawn vector)" predicts (the code
first multiplies the draw by the input: `f = x*r`); moreover the scale
argument handed to the sampler is `beta_variance` itself, not
`sqrt(beta_variance)`. -/
theorem C1_counterexample :
    rayleigh [[2,2]] [1,1] = [[-2,-2]] ∧
      rayleigh [[2,2]] [1,1] ≠ rowBroadcast (fun xi ri => xi * (1 - ri)) [[2,2]] [1,1] ∧
      train_fading_scale ≠ Real.sqrt beta_variance := by
  refine ⟨?_, ?_, ?_⟩
  · simp [rayleigh, zipMat, rowBroadcast]
    norm_num
  · simp [rayleigh, zipMat, rowBroadcast]
    norm_num
  · rw [train_fading_scale]
    exact beta_variance_ne_sqrt

/-- C1 (amended): each call of the training-time channel hands the sampler
the raw `beta_variance` as scale and `num_channels` as length, and with drawn
vector `r` outputs, entry-wise, `x * (1 - x*r)` — the input times one minus
(input times fading), not one minus the fading alone. -/
theorem C1_train_fading (x : Mat) (r : Vec) {i j : ℕ} (hi : i < x.length)
    (hj : j < (x.getD i []).length) (hr : j < r.length) :
    train_fading_scale = beta_variance ∧ train_fading_len = num_channels ∧
      entry (rayleigh x r) i j = entry x i j * (1 - entry x i j * r.getD j 0) :=
  ⟨rfl, rfl, entry_rayleigh x r hi hj hr⟩

/-- Witness for C1 (amended) at `x = [[2,2]]`, `r = [1,1]`. -/
theorem C1_witness :
    entry (rayleigh [[2,2]] [1,1]) 0 0 =
      entry [[2,2]] 0 0 * (1 - entry [[2,2]] 0 0 * ([1,1] : Vec).getD 0 0) :=
  (C1_train_fading [[2,2]] [1,1] (by norm_num) (by norm_num) (by norm_num)).2.2

/-- C2 counterexample: the training-time and evaluation-time channel
transforms disagree on the signal `[[2,2]]` with fading draw `[1,1]` and zero
noise — they are not the same function on signal vectors. -/
theorem C2_counterexample :
    train_channel [[2,2]] [1,1] [[0,0]] = [[-2,-2]] ∧
      eval_channel [[2,2]] [1,1] [[0,0]] = [[0,0]] ∧
      train_channel [[2,2]] [1,1] [[0,0]] ≠ eval_channel [[2,2]] [1,1] [[0,0]] := by
  refine ⟨?_, ?_, ?_⟩ <;>
    · simp [train_channel, eval_channel, gaussian_noise, rayleigh, stage_fade,
        stage_noise, zipMat, rowBroadcast]
      try norm_num

/-- C2 (amended): both channel transforms are a fading stage followed by the
same element-wise additive-noise stage, but the fading stages differ:
training computes `x*(1-x*r)` where evaluation computes `x*(1-r)`; an entry
agrees under both exactly when `x*r*(x-1) = 0` at that entry (in addition to
the documented difference in Gaussian standard deviation). -/
theorem C2_channel_refinement (x : Mat) (r : Vec) (n : Mat) {i j : ℕ}
    (hi : i < x.length) (hj : j < (x.getD i []).length) (hr : j < r.length) :
    train_channel x r n = gaussian_noise (rayleigh x r) n ∧
      eval_channel x r n = gaussian_noise (stage_fade x r) n ∧
      (entry (rayleigh x r) i j = entry (stage_fade x r) i j ↔
        entry x i j * r.getD j 0 * (entry x i j - 1) = 0) := by
  refine ⟨rfl, rfl, ?_⟩
  rw [entry_rayleigh x r hi hj hr, entry_stage_fade x r hi hj hr]
  constructor
  · intro h
    linear_combination (-1 : ℚ) * h
  · intro h
    linear_combination (-1 : ℚ) * h

/-- Witness for C2 (amended) at `x = [[1,1]]`, `r = [0,0]`, `n = [[0,0]]`. -/
theorem C2_witness :
    entry (rayleigh [[1,1]] [0,0]) 0 0 = entry (stage_fade [[1,1]] [0,0]) 0 0 ↔
      entry [[1,1]] 0 0 * ([0,0] : Vec).getD 0 0 * (entry [[1,1]] 0 0 - 1) = 0 :=
  (C2_channel_refinement [[1,1]] [0,0] [[0,0]]
    (by norm_num) (by norm_num) (by norm_num)).2.2

/-- C4 counterexample: the evaluation-time fading is not scaled to the swept
SNR: sweep points 0 and 60 have different linear SNRs yet are handed the
identical fading scale argument (the fixed design `beta_variance`). -/
theorem C4_counterexample :
    eval_fading_scale_at 0 = eval_fading_scale_at 60 ∧ snr_at 0 ≠ snr_at 60 := by
  refine ⟨rfl, ?_⟩
  have h0 : range_SNR_dB.getD 0 0 = -15 := by
    rw [getD_range_SNR_dB (by norm_num)]; norm_num
  have h60 : range_SNR_dB.getD 60 0 = 15 := by
    rw [getD_range_SNR_dB (by norm_num)]; norm_num
  rw [snr_at, snr_at, h0, h60]
  have hlt : (10:ℝ) ^ (((-15 : ℚ) : ℝ) / 10) < (10:ℝ) ^ (((15 : ℚ) : ℝ) / 10) := by
    rw [Real.rpow_lt_rpow_left_iff (by norm_num)]
    norm_num
  exact ne_of_lt hlt

/-- C4 (amended): at each sweep point `i` the linear SNR is
`10^(SNR_dB_i/10)` (positive), the Gaussian noise is zero-mean with standard
deviation `sqrt(1/(2*R*snr))` — so its square is `1/(2*R*snr)` — while the
applied fading keeps the fixed design scale `beta_variance`, unscaled. -/
theorem C4_noise_scaling (i : ℕ) (hi : i < 61) :
    mean_noise = 0 ∧
      snr_at i = (10:ℝ) ^ (((-15 + (i : ℚ) / 2 : ℚ) : ℝ) / 10) ∧
      0 < snr_at i ∧
      (std_noise_at i) ^ 2 = 1 / (2 * R * snr_at i) ∧
      eval_fading_scale_at i = beta_variance := by
  refine ⟨rfl, by rw [snr_at, getD_range_SNR_dB hi], ?_, ?_, rfl⟩
  · exact Real.rpow_pos_of_pos (by norm_num) _
  · rw [std_noise_at]
    refine Real.sq_sqrt ?_
    have hpos : 0 < snr_at i := Real.rpow_pos_of_pos (by norm_num) _
    rw [R_eq]
    positivity

/-- Witness for C4 (amended) at sweep point 0. -/
theorem C4_witness :
    (std_noise_at 0) ^ 2 = 1 / (2 * R * snr_at 0) ∧
      eval_fading_scale_at 0 = beta_variance := by
  have h := C4_noise_scaling 0 (by norm_num)
  exact ⟨h.2.2.2.1, h.2.2.2.2⟩

end Autoencoder
